import Mathlib

/-!
Shallow embedding of the contact-form request pipeline
(`src/handler.ts`, `src/security.ts`, `src/validation.ts`).

Text is modelled as Lean `String` (a wrapper around `List Char`); the
character-level operations of the source (regex replacement, `trim`,
substring search) are implemented on `List Char`.  Timestamps are `Int`
milliseconds, the rate-limiter table is an association list mirroring the
insertion-ordered JS `Map`, and thrown `ContactFormError`s are modelled as
`Except` values carrying the error message (their `statusCode` is applied
at the catch site in `send`, as in the source).
-/

/-- Characters removed by JS `String.prototype.trim` and matched by the
regex class `\s`: tab, LF, VT, FF, CR, space, NBSP, ogham space, the
en-quad..hair-space range, LS, PS, narrow NBSP, MMSP, ideographic space,
BOM. -/
def jsWhitespace (c : Char) : Bool :=
  let n := c.toNat
  n = 9 || n = 10 || n = 11 || n = 12 || n = 13 || n = 32 || n = 160 || n = 5760 ||
  (8192 ≤ n && n ≤ 8202) || n = 8232 || n = 8233 || n = 8239 || n = 8287 ||
  n = 12288 || n = 65279

/-- JS `String.prototype.trim`: drop leading and trailing whitespace. -/
def jsTrim (l : List Char) : List Char :=
  ((l.dropWhile jsWhitespace).reverse.dropWhile jsWhitespace).reverse

/-- JS `trim` lifted to `String`. -/
def jsTrimStr (s : String) : String := ⟨jsTrim s.data⟩

/-- The apostrophe character, `'`. -/
def aposChar : Char := Char.ofNat 39

/-- The five characters replaced by `sanitizeInput`'s regex class. -/
def htmlSpecial (c : Char) : Bool :=
  c = '<' || c = '>' || c = '&' || c = '"' || c = aposChar

/-- Per-character replacement of `sanitizeInput`'s `entityMap`: the five
HTML-significant characters map to their entities, everything else to
itself. -/
def entityFor (c : Char) : List Char :=
  if c = '<' then "&lt;".data
  else if c = '>' then "&gt;".data
  else if c = '&' then "&amp;".data
  else if c = '"' then "&quot;".data
  else if c = aposChar then "&#39;".data
  else [c]

/-- The global single-character-class `replace` of `sanitizeInput`. -/
def escapeHtml : List Char → List Char
  | [] => []
  | c :: rest => entityFor c ++ escapeHtml rest

/-- Character-level body of `sanitizeInput` (`security.ts`): replace the
five HTML-significant characters by entities, then `trim`. -/
def sanitizeCore (l : List Char) : List Char := jsTrim (escapeHtml l)

/-- `sanitizeInput` from `security.ts`. -/
def sanitizeInput (input : String) : String := ⟨sanitizeCore input.data⟩

/-- `validateOrigin` from `security.ts`.  `origin` is `string | undefined`;
the JS guard `!origin` also fires on the empty string. -/
def validateOrigin (origin : Option String) (allowedDomain : String) : Bool :=
  match origin with
  | none => true
  | some o =>
    if o = "" || allowedDomain = "*" then true
    else if "*.".data.isPrefixOf allowedDomain.data then
      let domain := allowedDomain.data.drop 2
      domain.isSuffixOf o.data || o.data = domain
    else o = allowedDomain

/-- ASCII lowering; JS case-insensitive (`/i`, no `u` flag) matching of the
ASCII-only signature patterns canonicalizes exactly the ASCII letters. -/
def asciiLower (c : Char) : Char :=
  if 'A' ≤ c && c ≤ 'Z' then Char.ofNat (c.toNat + 32) else c

/-- Lowercased character list of a string, the view the case-insensitive
signature regexes match against. -/
def lowerData (s : String) : List Char := s.data.map asciiLower

/-- Drop everything up to and including the first occurrence of `pat`;
`none` when `pat` does not occur. -/
def dropPast (pat : List Char) : List Char → Option (List Char)
  | [] => if pat = [] then some [] else none
  | c :: rest =>
    if pat.isPrefixOf (c :: rest) then some ((c :: rest).drop pat.length)
    else dropPast pat rest

/-- A match of a regex of the shape `t₁[\s\S]*?t₂[\s\S]*?t₃…` exists in `s`
iff the literal tokens occur in order. -/
def containsTokens : List Char → List (List Char) → Bool
  | _, [] => true
  | s, t :: ts =>
    match dropPast t s with
    | none => false
    | some rest => containsTokens rest ts

/-- Substring occurrence test. -/
def hasSubstr (s pat : List Char) : Bool := (dropPast pat s).isSome

/-- Regex `\w`: `[A-Za-z0-9_]`. -/
def wordChar (c : Char) : Bool :=
  ('a' ≤ c && c ≤ 'z') || ('A' ≤ c && c ≤ 'Z') || ('0' ≤ c && c ≤ '9') || c = '_'

/-- Does the list start with `\s*=`?  Whitespace characters are never `=`,
so the lazy/greedy distinction is irrelevant for existence. -/
def wsThenEq (l : List Char) : Bool :=
  match l.dropWhile jsWhitespace with
  | '=' :: _ => true
  | _ => false

/-- Does the list start with `\w+\s*=`? -/
def wordThenEq : List Char → Bool
  | [] => false
  | c :: rest => wordChar c && (wsThenEq rest || wordThenEq rest)

/-- Scan for a match of `on\w+\s*=` starting at any position. -/
def onEventScan : List Char → Bool
  | [] => false
  | c :: rest =>
    (match c, rest with
     | 'o', 'n' :: tail => wordThenEq tail
     | _, _ => false) || onEventScan rest

/-- Signature `/<script[\s\S]*?>[\s\S]*?<\/script>/gi`. -/
def scriptPattern (content : String) : Bool :=
  containsTokens (lowerData content) ["<script".data, ">".data, "</script>".data]

/-- Signature `/javascript:/gi`. -/
def javascriptPattern (content : String) : Bool :=
  hasSubstr (lowerData content) "javascript:".data

/-- Signature `/on\w+\s*=/gi`. -/
def onEventPattern (content : String) : Bool := onEventScan (lowerData content)

/-- Signature `/data:text\/html/gi`. -/
def dataHtmlPattern (content : String) : Bool :=
  hasSubstr (lowerData content) "data:text/html".data

/-- Signature `/vbscript:/gi`. -/
def vbscriptPattern (content : String) : Bool :=
  hasSubstr (lowerData content) "vbscript:".data

/-- Signature `/<iframe[\s\S]*?>[\s\S]*?<\/iframe>/gi`. -/
def iframePattern (content : String) : Bool :=
  containsTokens (lowerData content) ["<iframe".data, ">".data, "</iframe>".data]

/-- Signature `/<object[\s\S]*?>[\s\S]*?<\/object>/gi`. -/
def objectPattern (content : String) : Bool :=
  containsTokens (lowerData content) ["<object".data, ">".data, "</object>".data]

/-- Signature `/<embed[\s\S]*?>[\s\S]*?<\/embed>/gi`. -/
def embedPattern (content : String) : Bool :=
  containsTokens (lowerData content) ["<embed".data, ">".data, "</embed>".data]

/-- The `suspiciousPatterns` array of `security.ts`, in source order. -/
def suspiciousPatterns : List (String → Bool) :=
  [scriptPattern, javascriptPattern, onEventPattern, dataHtmlPattern,
   vbscriptPattern, iframePattern, objectPattern, embedPattern]

/-- `detectSuspiciousActivity` from `security.ts`:
`suspiciousPatterns.some(pattern => pattern.test(content))`. -/
def detectSuspiciousActivity (content : String) : Bool :=
  suspiciousPatterns.any (fun p => p content)

/-- `RateLimitConfig` from `security.ts`. -/
structure RateLimitConfig where
  maxRequests : Nat
  windowMs : Int
deriving DecidableEq

/-- One value of the `requestCounts` map. -/
structure RateLimitEntry where
  count : Nat
  windowStart : Int
deriving DecidableEq

/-- The `requestCounts` map, as an insertion-ordered association list. -/
abbrev RLState := List (String × RateLimitEntry)

/-- `Map.get`. -/
def mapGet : RLState → String → Option RateLimitEntry
  | [], _ => none
  | (k, v) :: rest, key => if k = key then some v else mapGet rest key

/-- `Map.set` (update in place, or append for a fresh key). -/
def mapSet : RLState → String → RateLimitEntry → RLState
  | [], key, v => [(key, v)]
  | (k, w) :: rest, key, v =>
    if k = key then (key, v) :: rest else (k, w) :: mapSet rest key v

/-- JS `a || b` on an optional string: the empty string is falsy. -/
def jsOrStr (o : Option String) (d : String) : String :=
  match o with
  | none => d
  | some s => if s = "" then d else s

/-- `checkRateLimit` from `security.ts`, with the mutated `requestCounts`
map passed explicitly and `Date.now()` as the `now` argument.  `sourceIp`
is `event.requestContext?.identity?.sourceIp`. -/
def checkRateLimit (state : RLState) (sourceIp : Option String) (now : Int)
    (config : RateLimitConfig) : Bool × RLState :=
  let clientIP := jsOrStr sourceIp "unknown"
  match mapGet state clientIP with
  | none => (true, mapSet state clientIP ⟨1, now⟩)
  | some existing =>
    if now - existing.windowStart > config.windowMs then
      (true, mapSet state clientIP ⟨1, now⟩)
    else if existing.count ≥ config.maxRequests then
      (false, state)
    else
      (true, mapSet state clientIP ⟨existing.count + 1, existing.windowStart⟩)

/-- A raw JSON request body restricted to the payload shapes the schema
claims concern: each known field either absent or a string (unknown extra
keys are stripped by the validator and are not modelled). -/
structure RawContactForm where
  email : Option String
  name : Option String
  content : Option String
  subject : Option String
deriving DecidableEq

/-- `ContactFormRequest` from `types.ts`: the validated, normalized record
(fields carry the trimmed values produced by the schema's transforms). -/
structure ContactFormRequest where
  email : String
  name : String
  content : String
  subject : Option String
deriving DecidableEq

/-- Modelled from the spec: the schema library's `.email()` format check
(the library's implementation is an external dependency, not in the
repository) — local-part `@` domain, with at least one dot in the domain
segment. -/
def emailOk (l : List Char) : Bool :=
  let localPart := l.takeWhile (fun c => c != '@')
  match l.dropWhile (fun c => c != '@') with
  | [] => false
  | _ :: domain => !localPart.isEmpty && !domain.contains '@' && domain.contains '.'

/-- The character class of the name regex `^[a-zA-Z\s\-'\.]+$`. -/
def nameCharOk (c : Char) : Bool :=
  ('a' ≤ c && c ≤ 'z') || ('A' ≤ c && c ≤ 'Z') || jsWhitespace c ||
  c = '-' || c = aposChar || c = '.'

/-- Issues produced for the `email` field of `contactFormSchema`
(`validation.ts`): required, then trim, then the email-format check. -/
def emailFieldIssues : Option String → List String
  | none => ["Email is required"]
  | some s =>
    if emailOk (jsTrim s.data) then [] else ["Please provide a valid email address"]

/-- Issues produced for the `name` field: required, then trim, then `min 2`,
`max 100`, and the allow-list regex, each check reporting independently. -/
def nameFieldIssues : Option String → List String
  | none => ["Name is required"]
  | some s =>
    let t := jsTrim s.data
    (if t.length < 2 then ["Name must be at least 2 characters long"] else []) ++
    (if t.length > 100 then ["Name cannot exceed 100 characters"] else []) ++
    (if t ≠ [] ∧ (∀ c ∈ t, nameCharOk c = true) then []
     else ["Name can only contain letters, spaces, hyphens, apostrophes, and periods"])

/-- Issues produced for the `content` field: required, then trim, then
`min 10` and `max 5000`. -/
def contentFieldIssues : Option String → List String
  | none => ["Message content is required"]
  | some s =>
    let t := jsTrim s.data
    (if t.length < 10 then ["Message must be at least 10 characters long"] else []) ++
    (if t.length > 5000 then ["Message cannot exceed 5000 characters"] else [])

/-- Issues produced for the optional `subject` field: trim, then `max 200`;
an absent subject is accepted. -/
def subjectFieldIssues : Option String → List String
  | none => []
  | some s =>
    if (jsTrim s.data).length > 200 then ["Subject cannot exceed 200 characters"] else []

/-- All issues of a parse, concatenated in the schema's key-declaration
order `email, name, content, subject`. -/
def contactFormIssues (r : RawContactForm) : List String :=
  emailFieldIssues r.email ++ nameFieldIssues r.name ++
  contentFieldIssues r.content ++ subjectFieldIssues r.subject

/-- `validateContactForm` from `validation.ts`: on success the data record
carries the trimmed field values; on failure the issue messages are joined
with `", "`. -/
def validateContactForm (r : RawContactForm) : Except String ContactFormRequest :=
  match r.email, r.name, r.content with
  | some e, some n, some c =>
    if contactFormIssues r = [] then
      .ok ⟨jsTrimStr e, jsTrimStr n, jsTrimStr c, r.subject.map jsTrimStr⟩
    else
      .error (String.intercalate ", " (contactFormIssues r))
  | _, _, _ => .error (String.intercalate ", " (contactFormIssues r))

/-- The `SendEmailCommandInput` fields populated by `createEmailParams`. -/
structure SendEmailInput where
  Source : String
  ToAddresses : List String
  ReplyToAddresses : List String
  SubjectData : String
  TextData : String
  HtmlData : String
deriving DecidableEq

/-- The plain-text body template of `createEmailParams`, after the
template literal's surrounding whitespace is removed by `.trim()`. -/
def emailTextBody (name email subject content : String) : String :=
  "New contact form submission:\n\nName: " ++ name ++ "\nEmail: " ++ email ++
  "\nSubject: " ++ subject ++ "\n\nMessage:\n" ++ content ++
  "\n\n---\nThis message was sent via the contact form."

/-- `content.replace(/\n/g, '<br>')`. -/
def brReplace : List Char → List Char
  | [] => []
  | c :: rest => (if c = '\n' then "<br>".data else [c]) ++ brReplace rest

/-- The HTML body template of `createEmailParams`, after the template
literal's surrounding whitespace is removed by `.trim()`. -/
def emailHtmlBody (name email subject content : String) : String :=
  "<html>\n<body>\n  <h2>New Contact Form Submission</h2>\n  <p><strong>Name:</strong> "
  ++ name ++ "</p>\n  <p><strong>Email:</strong> <a href=\"mailto:" ++ email ++ "\">"
  ++ email ++ "</a></p>\n  <p><strong>Subject:</strong> " ++ subject ++
  "</p>\n  \n  <h3>Message:</h3>\n  <div style=\"background-color: #f5f5f5; padding: 15px; border-left: 3px solid #007bff;\">\n    "
  ++ String.mk (brReplace content.data) ++
  "\n  </div>\n  \n  <hr>\n  <p><em>This message was sent via the contact form.</em></p>\n</body>\n</html>"

/-- `createEmailParams` from `handler.ts`.  The `email` argument is the
`EMAIL` environment variable (`undefined` or the empty string fail the JS
`!email` guard and raise an `EmailServiceError`, modelled as `.error`);
`request.subject || 'New Contact Form Submission'` substitutes the default
for an absent (or empty) subject. -/
def createEmailParams (request : ContactFormRequest) (email : Option String) :
    Except String SendEmailInput :=
  match email with
  | none => .error "EMAIL environment variable is not configured"
  | some e =>
    if e = "" then .error "EMAIL environment variable is not configured"
    else
      let subject := jsOrStr request.subject "New Contact Form Submission"
      .ok ⟨e, [e], [request.email], subject,
           emailTextBody request.name request.email subject request.content,
           emailHtmlBody request.name request.email subject request.content⟩

/-- Outcome of the one SES call of a request: the promise rejected with an
`Error`, rejected with a non-`Error` value, resolved without a `MessageId`,
or resolved with one. -/
inductive TransportResult where
  | errored (msg : String)
  | erroredRaw
  | noMessageId
  | delivered (messageId : String)
deriving DecidableEq

/-- `sendEmail` from `handler.ts`: a missing or empty `MessageId` raises an
`EmailServiceError` inside the `try`, which the surrounding `catch` wraps
again; a rejected call is wrapped once.  The value is the message of the
`EmailServiceError` ultimately thrown (status 500). -/
def sendEmailModel (tr : TransportResult) : Except String String :=
  match tr with
  | .errored m => .error ("Failed to send email: " ++ m)
  | .erroredRaw => .error "Failed to send email due to unknown error"
  | .noMessageId =>
    .error "Failed to send email: Failed to send email - no message ID received"
  | .delivered mid =>
    if mid = "" then
      .error "Failed to send email: Failed to send email - no message ID received"
    else .ok mid

/-- The request body as seen by `parseRequestBody`: absent (null or empty,
both falsy), present but not valid JSON, or a parsed JSON object. -/
inductive RequestBody where
  | noBody
  | badJson
  | jsonBody (r : RawContactForm)
deriving DecidableEq

/-- The parts of an `APIGatewayProxyEvent` the handler reads: the method,
the merged `headers.origin || headers.Origin` value, the body, and
`requestContext.identity.sourceIp`. -/
structure LambdaEvent where
  httpMethod : String
  origin : Option String
  body : RequestBody
  sourceIp : Option String
deriving DecidableEq

/-- The environment variables read by `getEnvVars` (the transport target
`AWS_REGION` does not influence any modelled outcome). -/
structure HandlerEnv where
  EMAIL : Option String
  DOMAIN : Option String
deriving DecidableEq

/-- The JSON response body: the preflight message, a success payload, or an
error payload with optional details. -/
inductive ResponseBody where
  | messageBody (message : String)
  | successBody (message : String) (messageId : String)
  | errorBody (error : String) (details : Option String)
deriving DecidableEq

/-- Status code and body of an `APIGatewayProxyResult` (the CORS headers,
identical on every path, are not modelled). -/
structure LambdaResponse where
  statusCode : Nat
  body : ResponseBody
deriving DecidableEq

/-- `parseRequestBody` from `handler.ts`: the thrown `ValidationError`
(status 400) is modelled as `.error` carrying its message. -/
def parseRequestBody : RequestBody → Except String ContactFormRequest
  | .noBody => .error "Request body is required"
  | .badJson => .error "Invalid JSON in request body"
  | .jsonBody r => validateContactForm r

/-- The `sanitizedRequest` record built in `send`: email passes through,
name and content are sanitized, and a truthy subject is sanitized while a
falsy one becomes `undefined`. -/
def sanitizeRequest (r : ContactFormRequest) : ContactFormRequest :=
  { email := r.email
    name := sanitizeInput r.name
    content := sanitizeInput r.content
    subject :=
      match r.subject with
      | none => none
      | some s => if s = "" then none else some (sanitizeInput s) }

/-- `send` from `handler.ts`, with the rate-limiter table, the clock and
the SES outcome passed explicitly.  Thrown `ContactFormError`s surface at
the final `catch` with their own status (400 for `ValidationError`, 500
for `EmailServiceError`) and no details field; every other path returns
directly. -/
def send (event : LambdaEvent) (env : HandlerEnv) (state : RLState)
    (transport : TransportResult) (now : Int) : LambdaResponse × RLState :=
  let DOMAIN := jsOrStr env.DOMAIN "*"
  if event.httpMethod = "OPTIONS" then
    (⟨200, .messageBody "CORS preflight successful"⟩, state)
  else if event.httpMethod ≠ "POST" then
    (⟨405, .errorBody "Method not allowed" (some "Only POST requests are supported")⟩, state)
  else
    let rl := checkRateLimit state event.sourceIp now ⟨5, 60000⟩
    if rl.1 = false then
      (⟨429, .errorBody "Too many requests" (some "Please try again later")⟩, rl.2)
    else if validateOrigin event.origin DOMAIN = false then
      (⟨403, .errorBody "Forbidden" (some "Invalid origin")⟩, rl.2)
    else
      match parseRequestBody event.body with
      | .error msg => (⟨400, .errorBody msg none⟩, rl.2)
      | .ok contactRequest =>
        if detectSuspiciousActivity contactRequest.content then
          (⟨400, .errorBody "Invalid content" (some "Suspicious content detected")⟩, rl.2)
        else
          match createEmailParams (sanitizeRequest contactRequest) env.EMAIL with
          | .error msg => (⟨500, .errorBody msg none⟩, rl.2)
          | .ok _ =>
            match sendEmailModel transport with
            | .error msg => (⟨500, .errorBody msg none⟩, rl.2)
            | .ok messageId =>
              (⟨200, .successBody "Your message has been sent successfully!" messageId⟩, rl.2)

/-- C2: `checkRateLimit` implements the per-identity state machine: a
missing entry, or one whose window has elapsed (`now - windowStart >
windowMs`), is created or reset with `count = 1` and allowed; otherwise a
count below `maxRequests` is incremented and allowed, and a count at or
above `maxRequests` is denied with the stored state unchanged.  With
`maxRequests = 3`, three calls for one identity inside a window are
allowed, the fourth is denied, and a call after the window elapses is
allowed again. -/
theorem checkRateLimit_state_machine :
    (∀ (state : RLState) (ip : Option String) (now : Int) (cfg : RateLimitConfig),
      mapGet state (jsOrStr ip "unknown") = none →
      checkRateLimit state ip now cfg =
        (true, mapSet state (jsOrStr ip "unknown") ⟨1, now⟩)) ∧
    (∀ (state : RLState) (ip : Option String) (now : Int) (cfg : RateLimitConfig)
      (e : RateLimitEntry), mapGet state (jsOrStr ip "unknown") = some e →
      now - e.windowStart > cfg.windowMs →
      checkRateLimit state ip now cfg =
        (true, mapSet state (jsOrStr ip "unknown") ⟨1, now⟩)) ∧
    (∀ (state : RLState) (ip : Option String) (now : Int) (cfg : RateLimitConfig)
      (e : RateLimitEntry), mapGet state (jsOrStr ip "unknown") = some e →
      ¬(now - e.windowStart > cfg.windowMs) → e.count < cfg.maxRequests →
      checkRateLimit state ip now cfg =
        (true, mapSet state (jsOrStr ip "unknown") ⟨e.count + 1, e.windowStart⟩)) ∧
    (∀ (state : RLState) (ip : Option String) (now : Int) (cfg : RateLimitConfig)
      (e : RateLimitEntry), mapGet state (jsOrStr ip "unknown") = some e →
      ¬(now - e.windowStart > cfg.windowMs) → cfg.maxRequests ≤ e.count →
      checkRateLimit state ip now cfg = (false, state)) ∧
    (checkRateLimit [] (some "9.9.9.9") 0 ⟨3, 60000⟩ =
        (true, [("9.9.9.9", ⟨1, 0⟩)]) ∧
      checkRateLimit [("9.9.9.9", ⟨1, 0⟩)] (some "9.9.9.9") 1 ⟨3, 60000⟩ =
        (true, [("9.9.9.9", ⟨2, 0⟩)]) ∧
      checkRateLimit [("9.9.9.9", ⟨2, 0⟩)] (some "9.9.9.9") 2 ⟨3, 60000⟩ =
        (true, [("9.9.9.9", ⟨3, 0⟩)]) ∧
      checkRateLimit [("9.9.9.9", ⟨3, 0⟩)] (some "9.9.9.9") 3 ⟨3, 60000⟩ =
        (false, [("9.9.9.9", ⟨3, 0⟩)]) ∧
      checkRateLimit [("9.9.9.9", ⟨3, 0⟩)] (some "9.9.9.9") 60001 ⟨3, 60000⟩ =
        (true, [("9.9.9.9", ⟨1, 60001⟩)])) := by
  refine ⟨?_, ?_, ?_, ?_, by decide⟩
  · intro state ip now cfg h
    simp [checkRateLimit, h]
  · intro state ip now cfg e h hw
    simp [checkRateLimit, h, hw]
  · intro state ip now cfg e h hw hc
    have hge : ¬(e.count ≥ cfg.maxRequests) := by omega
    simp [checkRateLimit, h, hw, hge]
  · intro state ip now cfg e h hw hc
    have hge : e.count ≥ cfg.maxRequests := hc
    simp [checkRateLimit, h, hw, hge]

/-- Witness for `checkRateLimit_state_machine`: each of the four transition
rules evaluated at a concrete state. -/
theorem checkRateLimit_state_machine_witness :
    checkRateLimit [] (some "7.7.7.7") 5 ⟨2, 1000⟩ =
      (true, [("7.7.7.7", ⟨1, 5⟩)]) ∧
    checkRateLimit [("7.7.7.7", ⟨2, 0⟩)] (some "7.7.7.7") 2000 ⟨2, 1000⟩ =
      (true, [("7.7.7.7", ⟨1, 2000⟩)]) ∧
    checkRateLimit [("7.7.7.7", ⟨1, 0⟩)] (some "7.7.7.7") 500 ⟨2, 1000⟩ =
      (true, [("7.7.7.7", ⟨2, 0⟩)]) ∧
    checkRateLimit [("7.7.7.7", ⟨2, 0⟩)] (some "7.7.7.7") 500 ⟨2, 1000⟩ =
      (false, [("7.7.7.7", ⟨2, 0⟩)]) := by
  refine ⟨?_, ?_, ?_, ?_⟩
  · simpa using checkRateLimit_state_machine.1 [] (some "7.7.7.7") 5 ⟨2, 1000⟩ (by decide)
  · simpa using checkRateLimit_state_machine.2.1 [("7.7.7.7", ⟨2, 0⟩)] (some "7.7.7.7")
      2000 ⟨2, 1000⟩ ⟨2, 0⟩ (by decide) (by decide)
  · simpa using checkRateLimit_state_machine.2.2.1 [("7.7.7.7", ⟨1, 0⟩)] (some "7.7.7.7")
      500 ⟨2, 1000⟩ ⟨1, 0⟩ (by decide) (by decide) (by decide)
  · simpa using checkRateLimit_state_machine.2.2.2.1 [("7.7.7.7", ⟨2, 0⟩)] (some "7.7.7.7")
      500 ⟨2, 1000⟩ ⟨2, 0⟩ (by decide) (by decide) (by decide)

/-- C4 counterexample: an empty (present, non-absent) origin is allowed
under the wildcard-subdomain policy `*.example.com` although it neither
equals nor ends in the suffix `example.com`, and is likewise allowed under
an exact policy it does not equal — the JS guard `!origin` treats the
empty string like an absent origin. -/
theorem validateOrigin_empty_origin_counterexample :
    validateOrigin (some "") "*.example.com" = true ∧
    ("example.com".data.isSuffixOf "".data || "".data = "example.com".data) = false ∧
    validateOrigin (some "") "https://site.example" = true ∧
    ("" : String) ≠ "https://site.example" := by decide

/-- C4 amended: wildcard policy allows every origin; an absent origin is
always allowed, and so is an empty one (treated like an absent origin by
the falsy-check); under a `*.`-prefixed policy a nonempty origin is
allowed exactly when it ends in or equals the suffix; otherwise a nonempty
origin must equal the policy exactly.  The two example evaluations of the
claim hold. -/
theorem validateOrigin_policy_characterization :
    (∀ origin : Option String, validateOrigin origin "*" = true) ∧
    (∀ policy : String,
      validateOrigin none policy = true ∧ validateOrigin (some "") policy = true) ∧
    (∀ (o policy : String), o ≠ "" → "*.".data.isPrefixOf policy.data →
      validateOrigin (some o) policy =
        ((policy.data.drop 2).isSuffixOf o.data || o.data = policy.data.drop 2)) ∧
    (∀ (o policy : String), o ≠ "" → policy ≠ "*" → ¬("*.".data.isPrefixOf policy.data) →
      (validateOrigin (some o) policy = true ↔ o = policy)) ∧
    validateOrigin (some "https://api.example.com") "*.example.com" = true ∧
    validateOrigin (some "https://evil.com") "*.example.com" = false := by
  refine ⟨?_, ?_, ?_, ?_, by decide, by decide⟩
  · intro origin
    cases origin with
    | none => rfl
    | some o => simp [validateOrigin]
  · intro policy
    exact ⟨rfl, by simp [validateOrigin]⟩
  · intro o policy ho hp
    have hstar : policy ≠ "*" := by
      intro h
      subst h
      exact absurd hp (by decide)
    simp [validateOrigin, ho, hstar, hp]
  · intro o policy ho hstar hp
    simp [validateOrigin, ho, hstar, hp]

/-- Witness for `validateOrigin_policy_characterization`: every conjunct
with a hypothesis instantiated at concrete origins and policies. -/
theorem validateOrigin_policy_characterization_witness :
    validateOrigin (some "https://x.test") "*" = true ∧
    validateOrigin (some "https://sub.mysite.org") "*.mysite.org" =
      (("*.mysite.org".data.drop 2).isSuffixOf "https://sub.mysite.org".data ||
        "https://sub.mysite.org".data = "*.mysite.org".data.drop 2) ∧
    (validateOrigin (some "https://a.test") "https://a.test" = true ↔
      ("https://a.test" : String) = "https://a.test") := by
  refine ⟨?_, ?_, ?_⟩
  · exact validateOrigin_policy_characterization.1 (some "https://x.test")
  · exact validateOrigin_policy_characterization.2.2.1 "https://sub.mysite.org"
      "*.mysite.org" (by decide) (by decide)
  · exact validateOrigin_policy_characterization.2.2.2.1 "https://a.test"
      "https://a.test" (by decide) (by decide) (by decide)

/-- C5: `detectSuspiciousActivity` is a pure boolean function returning
true exactly when at least one of its fixed case-insensitive signatures —
script elements, `javascript:`/`vbscript:` URIs, inline `on<word>=`
handlers, `data:text/html` URIs, iframe/object/embed elements — matches
anywhere in the text; it flags `<script>alert(1)</script>` and passes
`I love this <3 product`. -/
theorem detectSuspiciousActivity_signatures :
    (∀ content : String,
      detectSuspiciousActivity content =
        (scriptPattern content || javascriptPattern content || onEventPattern content ||
         dataHtmlPattern content || vbscriptPattern content || iframePattern content ||
         objectPattern content || embedPattern content)) ∧
    detectSuspiciousActivity "<script>alert(1)</script>" = true ∧
    detectSuspiciousActivity "I love this <3 product" = false := by
  refine ⟨?_, by decide, by decide⟩
  intro content
  simp [detectSuspiciousActivity, suspiciousPatterns, Bool.or_assoc]

/-- C3 counterexample: with both the email and the name field invalid, the
combined message lists the email reason first — the schema declares its
fields in the order `email, name, content, subject`, not
`name, email, content, subject`. -/
theorem validateContactForm_order_counterexample :
    validateContactForm ⟨some "bad", some "J", some "this content is long enough", none⟩ =
      .error "Please provide a valid email address, Name must be at least 2 characters long" ∧
    ("Please provide a valid email address, Name must be at least 2 characters long" : String) ≠
      "Name must be at least 2 characters long, Please provide a valid email address" := by
  exact ⟨by rfl, by decide⟩

/-- C3 amended: `validateContactForm` collects every applicable field
failure — within a field every failing check reports, and across fields
the per-field issue lists are concatenated — and joins the reasons with
`", "` in the schema's declaration order `email, name, content, subject`
(a pure function, so the order is stable across calls). -/
theorem validateContactForm_declaration_order :
    (∀ r : RawContactForm, contactFormIssues r ≠ [] →
      validateContactForm r = .error (String.intercalate ", " (contactFormIssues r))) ∧
    (∀ r : RawContactForm, contactFormIssues r =
      emailFieldIssues r.email ++ nameFieldIssues r.name ++
        contentFieldIssues r.content ++ subjectFieldIssues r.subject) ∧
    contactFormIssues ⟨some "bad", some "J", some "this content is long enough", none⟩ =
      ["Please provide a valid email address", "Name must be at least 2 characters long"] ∧
    nameFieldIssues (some "7") =
      ["Name must be at least 2 characters long",
       "Name can only contain letters, spaces, hyphens, apostrophes, and periods"] := by
  refine ⟨?_, fun r => rfl, by decide, by decide⟩
  intro r h
  rcases r with ⟨e, n, c, s⟩
  cases e with
  | none => rfl
  | some e' =>
    cases n with
    | none => rfl
    | some n' =>
      cases c with
      | none => rfl
      | some c' =>
        simp only [validateContactForm]
        rw [if_neg h]

/-- Witness for `validateContactForm_declaration_order`: the failure
branch applied to a concrete multi-field-invalid payload. -/
theorem validateContactForm_declaration_order_witness :
    validateContactForm ⟨some "nope", some "Valid Name", some "long enough content here", none⟩ =
      .error (String.intercalate ", "
        (contactFormIssues
          ⟨some "nope", some "Valid Name", some "long enough content here", none⟩)) :=
  validateContactForm_declaration_order.1 _ (by decide)

/-- C8: a payload whose name, email and content pass their field checks
and whose subject is absent is accepted with `subject` left absent (not
defaulted), and the placeholder `New Contact Form Submission` is
substituted only inside `createEmailParams` when the mail subject and
bodies are built. -/
theorem subject_absent_not_defaulted :
    (∀ (e n c : String), emailFieldIssues (some e) = [] → nameFieldIssues (some n) = [] →
      contentFieldIssues (some c) = [] →
      validateContactForm ⟨some e, some n, some c, none⟩ =
        .ok ⟨jsTrimStr e, jsTrimStr n, jsTrimStr c, none⟩) ∧
    (∀ (req : ContactFormRequest) (m : String), m ≠ "" → req.subject = none →
      createEmailParams req (some m) =
        .ok ⟨m, [m], [req.email], "New Contact Form Submission",
             emailTextBody req.name req.email "New Contact Form Submission" req.content,
             emailHtmlBody req.name req.email "New Contact Form Submission" req.content⟩) := by
  constructor
  · intro e n c h1 h2 h3
    simp [validateContactForm, contactFormIssues, subjectFieldIssues, h1, h2, h3]
  · intro req m hm hs
    simp [createEmailParams, hm, jsOrStr, hs]

/-- Witness for `subject_absent_not_defaulted`: a concrete subjectless
payload is accepted with `subject = none`, and a concrete subjectless
request gets the default subject inside `createEmailParams`. -/
theorem subject_absent_not_defaulted_witness :
    validateContactForm
        ⟨some "user@example.com", some "John Doe", some "Hello there, I need help", none⟩ =
      .ok ⟨"user@example.com", "John Doe", "Hello there, I need help", none⟩ ∧
    createEmailParams ⟨"u@e.co", "John", "hello world okay", none⟩ (some "owner@site.com") =
      .ok ⟨"owner@site.com", ["owner@site.com"], ["u@e.co"], "New Contact Form Submission",
           emailTextBody "John" "u@e.co" "New Contact Form Submission" "hello world okay",
           emailHtmlBody "John" "u@e.co" "New Contact Form Submission" "hello world okay"⟩ := by
  constructor
  · have h := subject_absent_not_defaulted.1 "user@example.com" "John Doe"
      "Hello there, I need help" (by decide) (by decide) (by decide)
    rw [h]
    rfl
  · exact subject_absent_not_defaulted.2 ⟨"u@e.co", "John", "hello world okay", none⟩
      "owner@site.com" (by decide) rfl

/-- C9 counterexample: `éé` consists solely of letters in the Unicode
sense and has acceptable length 2, yet the allow-list regex
`^[a-zA-Z\s\-'\.]+$` (ASCII letters only) rejects it, so validation of the
name field fails. -/
theorem nameField_unicode_letter_counterexample :
    nameFieldIssues (some "éé") =
      ["Name can only contain letters, spaces, hyphens, apostrophes, and periods"] ∧
    validateContactForm ⟨some "a@b.co", some "éé", some "this content is long enough", none⟩ =
      .error "Name can only contain letters, spaces, hyphens, apostrophes, and periods" := by
  exact ⟨by decide, by rfl⟩

/-- C9 amended: a trimmed name of length 2–100 passes the name field
exactly when every character is an ASCII letter, whitespace, hyphen,
apostrophe, or period; in particular every name consisting solely of
ASCII letters of acceptable length is accepted (names containing
non-ASCII letters, digits, or other punctuation are rejected). -/
theorem nameField_allowlist_characterization :
    (∀ s : String, jsTrim s.data = s.data →
      (nameFieldIssues (some s) = [] ↔
        (2 ≤ s.data.length ∧ s.data.length ≤ 100 ∧ ∀ c ∈ s.data, nameCharOk c = true))) ∧
    (∀ s : String, jsTrim s.data = s.data → 2 ≤ s.data.length → s.data.length ≤ 100 →
      (∀ c ∈ s.data, (('a' ≤ c && c ≤ 'z') || ('A' ≤ c && c ≤ 'Z')) = true) →
      nameFieldIssues (some s) = []) := by
  have main : ∀ s : String, jsTrim s.data = s.data →
      (nameFieldIssues (some s) = [] ↔
        (2 ≤ s.data.length ∧ s.data.length ≤ 100 ∧ ∀ c ∈ s.data, nameCharOk c = true)) := by
    intro s ht
    have hlen : s.length = s.data.length := rfl
    simp only [nameFieldIssues, ht]
    constructor
    · intro h
      simp at h
      obtain ⟨hl, hu, _, hall⟩ := h
      rw [hlen] at hl hu
      exact ⟨hl, hu, hall⟩
    · rintro ⟨hl, hu, hall⟩
      have h3 : s.data ≠ [] := by
        intro hnil
        rw [hnil] at hl
        simp at hl
      simp [h3]
      rw [hlen]
      exact ⟨hl, hu, hall⟩
  refine ⟨main, ?_⟩
  intro s ht hl hu hletters
  refine (main s ht).mpr ⟨hl, hu, fun c hc => ?_⟩
  have hb := hletters c hc
  simp [nameCharOk, hb]

/-- Witness for `nameField_allowlist_characterization`: both parts applied
to concrete names. -/
theorem nameField_allowlist_characterization_witness :
    (nameFieldIssues (some "John") = [] ↔
      (2 ≤ ("John" : String).data.length ∧ ("John" : String).data.length ≤ 100 ∧
        ∀ c ∈ ("John" : String).data, nameCharOk c = true)) ∧
    nameFieldIssues (some "Mary") = [] := by
  constructor
  · exact nameField_allowlist_characterization.1 "John" (by decide)
  · exact nameField_allowlist_characterization.2 "Mary" (by decide) (by decide)
      (by decide) (by decide)

/-- C1: `send` applies its gates in order, each failing gate
short-circuiting, with the specified status mapping: OPTIONS returns 200
(rate-limiter state untouched); any other non-POST method returns 405; a
rate-limited POST returns 429; a disallowed origin returns 403; a missing,
malformed, or schema-invalid body returns 400; suspicious content returns
400; a missing sender configuration or a transport failure (a rejected
call, or a call returning no message identifier) returns 500; a fully
successful request returns 200 with the messageId.  `send` is a total
function, so exactly one outcome is produced per request. -/
theorem send_pipeline_gates (event : LambdaEvent) (env : HandlerEnv) (state : RLState)
    (transport : TransportResult) (now : Int) :
    (event.httpMethod = "OPTIONS" →
      send event env state transport now =
        (⟨200, .messageBody "CORS preflight successful"⟩, state)) ∧
    (event.httpMethod ≠ "OPTIONS" → event.httpMethod ≠ "POST" →
      send event env state transport now =
        (⟨405, .errorBody "Method not allowed" (some "Only POST requests are supported")⟩,
          state)) ∧
    (event.httpMethod = "POST" →
      ((checkRateLimit state event.sourceIp now ⟨5, 60000⟩).1 = false →
        send event env state transport now =
          (⟨429, .errorBody "Too many requests" (some "Please try again later")⟩,
            (checkRateLimit state event.sourceIp now ⟨5, 60000⟩).2)) ∧
      ((checkRateLimit state event.sourceIp now ⟨5, 60000⟩).1 = true →
        (validateOrigin event.origin (jsOrStr env.DOMAIN "*") = false →
          send event env state transport now =
            (⟨403, .errorBody "Forbidden" (some "Invalid origin")⟩,
              (checkRateLimit state event.sourceIp now ⟨5, 60000⟩).2)) ∧
        (validateOrigin event.origin (jsOrStr env.DOMAIN "*") = true →
          (∀ msg, parseRequestBody event.body = .error msg →
            send event env state transport now =
              (⟨400, .errorBody msg none⟩,
                (checkRateLimit state event.sourceIp now ⟨5, 60000⟩).2)) ∧
          (∀ req, parseRequestBody event.body = .ok req →
            (detectSuspiciousActivity req.content = true →
              send event env state transport now =
                (⟨400, .errorBody "Invalid content" (some "Suspicious content detected")⟩,
                  (checkRateLimit state event.sourceIp now ⟨5, 60000⟩).2)) ∧
            (detectSuspiciousActivity req.content = false →
              (∀ msg, createEmailParams (sanitizeRequest req) env.EMAIL = .error msg →
                send event env state transport now =
                  (⟨500, .errorBody msg none⟩,
                    (checkRateLimit state event.sourceIp now ⟨5, 60000⟩).2)) ∧
              (∀ params, createEmailParams (sanitizeRequest req) env.EMAIL = .ok params →
                (∀ msg, sendEmailModel transport = .error msg →
                  send event env state transport now =
                    (⟨500, .errorBody msg none⟩,
                      (checkRateLimit state event.sourceIp now ⟨5, 60000⟩).2)) ∧
                (∀ mid, sendEmailModel transport = .ok mid →
                  send event env state transport now =
                    (⟨200, .successBody "Your message has been sent successfully!" mid⟩,
                      (checkRateLimit state event.sourceIp now ⟨5, 60000⟩).2)))))))) := by
  refine ⟨?_, ?_, ?_⟩
  · intro h
    simp [send, h]
  · intro h1 h2
    simp [send, h1, h2]
  · intro hm
    have h1 : event.httpMethod ≠ "OPTIONS" := by
      rw [hm]
      decide
  
    refine ⟨?_, ?_⟩
    · intro hrl
      simp [send, h1, hm, hrl]
    · intro hrl
      refine ⟨?_, ?_⟩
      · intro horig
        simp [send, h1, hm, hrl, horig]
      · intro horig
        refine ⟨?_, ?_⟩
        · intro msg hparse
          simp [send, h1, hm, hrl, horig, hparse]
        · intro req hparse
          refine ⟨?_, ?_⟩
          · intro hdet
            simp [send, h1, hm, hrl, horig, hparse, hdet]
          · intro hdet
            refine ⟨?_, ?_⟩
            · intro msg hmail
              simp [send, h1, hm, hrl, horig, hparse, hdet, hmail]
            · intro params hmail
              refine ⟨?_, ?_⟩
              · intro msg hsend
                simp [send, h1, hm, hrl, horig, hparse, hdet, hmail, hsend]
              · intro mid hsend
                simp [send, h1, hm, hrl, horig, hparse, hdet, hmail, hsend]

/-- Witness for `send_pipeline_gates`: the preflight gate and the full
success path evaluated on concrete requests. -/
theorem send_pipeline_gates_witness :
    send ⟨"OPTIONS", none, .noBody, none⟩ ⟨none, none⟩ [] (.delivered "m") 0 =
      (⟨200, .messageBody "CORS preflight successful"⟩, []) ∧
    send ⟨"POST", some "https://ok.example.com",
          .jsonBody ⟨some "user@example.com", some "John Doe",
            some "Hello, I would like more information please.", none⟩,
          some "2.2.2.2"⟩
        ⟨some "owner@site.com", none⟩ [] (.delivered "msg-123") 0 =
      (⟨200, .successBody "Your message has been sent successfully!" "msg-123"⟩,
        [("2.2.2.2", ⟨1, 0⟩)]) := by
  constructor
  · exact (send_pipeline_gates _ _ _ _ _).1 rfl
  · have h := send_pipeline_gates
      ⟨"POST", some "https://ok.example.com",
        .jsonBody ⟨some "user@example.com", some "John Doe",
          some "Hello, I would like more information please.", none⟩,
        some "2.2.2.2"⟩
      ⟨some "owner@site.com", none⟩ [] (.delivered "msg-123") 0
    exact (((((((h.2.2 rfl).2 (by decide)).2 (by decide)).2
      ⟨"user@example.com", "John Doe", "Hello, I would like more information please.", none⟩
      (by rfl)).2 (by decide)).2 _ (by rfl)).2 "msg-123" (by rfl))

/-- C10: an OPTIONS request, and any request whose method is neither POST
nor OPTIONS, is answered without reading or mutating the rate-limiter
table: the table is returned unchanged and the response is the same for
every starting table. -/
theorem send_non_post_rate_state_frame (event : LambdaEvent) (env : HandlerEnv)
    (state : RLState) (transport : TransportResult) (now : Int)
    (h : event.httpMethod = "OPTIONS" ∨ event.httpMethod ≠ "POST") :
    (send event env state transport now).2 = state ∧
    ∀ state' : RLState,
      (send event env state' transport now).1 = (send event env state transport now).1 := by
  by_cases hop : event.httpMethod = "OPTIONS"
  · refine ⟨by simp [send, hop], fun s' => by simp [send, hop]⟩
  · have hpost : event.httpMethod ≠ "POST" := h.resolve_left hop
    refine ⟨by simp [send, hop, hpost], fun s' => by simp [send, hop, hpost]⟩

/-- Witness for `send_non_post_rate_state_frame`: an OPTIONS request and a
GET request leave a populated rate-limiter table unchanged. -/
theorem send_non_post_rate_state_frame_witness :
    (send ⟨"OPTIONS", none, .noBody, some "1.1.1.1"⟩ ⟨some "o@e.co", none⟩
        [("1.1.1.1", ⟨4, 0⟩)] (.delivered "m") 0).2 = [("1.1.1.1", ⟨4, 0⟩)] ∧
    (send ⟨"GET", none, .noBody, some "1.1.1.1"⟩ ⟨some "o@e.co", none⟩
        [("1.1.1.1", ⟨4, 0⟩)] (.delivered "m") 0).2 = [("1.1.1.1", ⟨4, 0⟩)] := by
  constructor
  · exact (send_non_post_rate_state_frame _ _ _ _ _ (Or.inl rfl)).1
  · exact (send_non_post_rate_state_frame _ _ _ _ _ (Or.inr (by decide))).1

theorem jsTrim_eq_rdrop (l : List Char) :
    jsTrim l = List.rdropWhile jsWhitespace (List.dropWhile jsWhitespace l) := rfl

theorem mem_dropWhile_of (p : Char → Bool) (c : Char) (hp : p c = false) :
    ∀ l : List Char, c ∈ l → c ∈ l.dropWhile p := by
  intro l
  induction l with
  | nil => intro h; cases h
  | cons a t ih =>
    intro h
    by_cases ha : p a = true
    · rcases List.mem_cons.mp h with rfl | ht
      · rw [hp] at ha; cases ha
      · simpa [List.dropWhile_cons, ha] using ih ht
    · simpa [List.dropWhile_cons, ha] using h

theorem mem_rdropWhile_of (p : Char → Bool) (c : Char) (hp : p c = false)
    (l : List Char) (h : c ∈ l) : c ∈ List.rdropWhile p l := by
  rw [List.rdropWhile, List.mem_reverse]
  exact mem_dropWhile_of p c hp _ (List.mem_reverse.mpr h)

theorem mem_jsTrim_of (c : Char) (hp : jsWhitespace c = false) (l : List Char)
    (h : c ∈ l) : c ∈ jsTrim l := by
  rw [jsTrim_eq_rdrop]
  exact mem_rdropWhile_of _ _ hp _ (mem_dropWhile_of _ _ hp _ h)

theorem jsTrim_subset (l : List Char) : jsTrim l ⊆ l := by
  rw [jsTrim_eq_rdrop]
  intro c hc
  have h1 : c ∈ List.dropWhile jsWhitespace l :=
    (List.rdropWhile_prefix _ _).sublist.subset hc
  exact (List.dropWhile_suffix _).sublist.subset h1

theorem dropWhile_eq_self_of_prefix {p : Char → Bool} {u m : List Char}
    (hm : m.dropWhile p = m) (hpre : u <+: m) : u.dropWhile p = u := by
  rcases u with _ | ⟨a, t⟩
  · rfl
  · obtain ⟨r, rfl⟩ := hpre
    have h0 := List.dropWhile_eq_self_iff.mp hm (by simp)
    have hpa : p a = false := by simpa using h0
    simp [List.dropWhile_cons, hpa]

theorem jsTrim_trimmed_left (l : List Char) :
    List.dropWhile jsWhitespace (jsTrim l) = jsTrim l := by
  rw [jsTrim_eq_rdrop]
  exact dropWhile_eq_self_of_prefix (List.dropWhile_idempotent _ _)
    (List.rdropWhile_prefix _ _)

theorem jsTrim_trimmed_right (l : List Char) :
    List.rdropWhile jsWhitespace (jsTrim l) = jsTrim l := by
  rw [jsTrim_eq_rdrop]
  exact List.rdropWhile_idempotent _ _

theorem jsTrim_eq_self {x : List Char} (h1 : List.dropWhile jsWhitespace x = x)
    (h2 : List.rdropWhile jsWhitespace x = x) : jsTrim x = x := by
  rw [jsTrim_eq_rdrop, h1, h2]

theorem jsTrim_idem (l : List Char) : jsTrim (jsTrim l) = jsTrim l :=
  jsTrim_eq_self (jsTrim_trimmed_left l) (jsTrim_trimmed_right l)

theorem escapeHtml_append (x y : List Char) :
    escapeHtml (x ++ y) = escapeHtml x ++ escapeHtml y := by
  induction x with
  | nil => rfl
  | cons a t ih => simp [escapeHtml, ih]

theorem entityFor_head_cases (a : Char) :
    ∃ d t', entityFor a = d :: t' ∧ (d = a ∨ d = '&') := by
  unfold entityFor
  split_ifs with h1 h2 h3 h4 h5
  · exact ⟨'&', ['l', 't', ';'], by decide, Or.inr rfl⟩
  · exact ⟨'&', ['g', 't', ';'], by decide, Or.inr rfl⟩
  · exact ⟨'&', ['a', 'm', 'p', ';'], by decide, Or.inr rfl⟩
  · exact ⟨'&', ['q', 'u', 'o', 't', ';'], by decide, Or.inr rfl⟩
  · exact ⟨'&', ['#', '3', '9', ';'], by decide, Or.inr rfl⟩
  · exact ⟨a, [], rfl, Or.inl rfl⟩

theorem entityFor_concat_cases (a : Char) :
    ∃ t' d, entityFor a = t' ++ [d] ∧ (d = a ∨ d = ';') := by
  unfold entityFor
  split_ifs with h1 h2 h3 h4 h5
  · exact ⟨['&', 'l', 't'], ';', by decide, Or.inr rfl⟩
  · exact ⟨['&', 'g', 't'], ';', by decide, Or.inr rfl⟩
  · exact ⟨['&', 'a', 'm', 'p'], ';', by decide, Or.inr rfl⟩
  · exact ⟨['&', 'q', 'u', 'o', 't'], ';', by decide, Or.inr rfl⟩
  · exact ⟨['&', '#', '3', '9'], ';', by decide, Or.inr rfl⟩
  · exact ⟨[], a, rfl, Or.inl rfl⟩

theorem dropWhile_escapeHtml (u : List Char)
    (h : List.dropWhile jsWhitespace u = u) :
    List.dropWhile jsWhitespace (escapeHtml u) = escapeHtml u := by
  cases u with
  | nil => rfl
  | cons a t =>
    have hpa : jsWhitespace a = false := by
      have h0 := List.dropWhile_eq_self_iff.mp h (by simp)
      simpa using h0
    obtain ⟨d, t', hd, hcase⟩ := entityFor_head_cases a
    have hpd : jsWhitespace d = false := by
      rcases hcase with rfl | rfl
      · exact hpa
      · decide
    show List.dropWhile jsWhitespace (entityFor a ++ escapeHtml t) =
      entityFor a ++ escapeHtml t
    rw [hd]
    simp [List.dropWhile_cons, hpd]

theorem rdropWhile_escapeHtml (u : List Char)
    (h : List.rdropWhile jsWhitespace u = u) :
    List.rdropWhile jsWhitespace (escapeHtml u) = escapeHtml u := by
  induction u using List.reverseRecOn with
  | nil => simp [escapeHtml]
  | append_singleton l' a ih =>
    have hpa : jsWhitespace a = false := by
      by_contra hpa'
      rw [Bool.not_eq_false] at hpa'
      rw [List.rdropWhile_concat_pos _ _ _ hpa'] at h
      have hlen := (List.rdropWhile_prefix jsWhitespace l').length_le
      rw [h] at hlen
      simp at hlen
    obtain ⟨t', d, hd, hcase⟩ := entityFor_concat_cases a
    have hpd : jsWhitespace d = false := by
      rcases hcase with rfl | rfl
      · exact hpa
      · decide
    rw [escapeHtml_append]
    have h1 : escapeHtml [a] = entityFor a := by simp [escapeHtml]
    rw [h1, hd, ← List.append_assoc]
    exact List.rdropWhile_concat_neg _ _ _ (by simp [hpd])

theorem entityFor_length_pos (c : Char) : 1 ≤ (entityFor c).length := by
  unfold entityFor
  split_ifs <;> simp

theorem length_le_escapeHtml (l : List Char) : l.length ≤ (escapeHtml l).length := by
  induction l with
  | nil => simp [escapeHtml]
  | cons a t ih =>
    simp only [escapeHtml, List.length_append, List.length_cons]
    have h1 := entityFor_length_pos a
    omega

theorem amp_mem_entityFor (c : Char) (h : htmlSpecial c = true) : '&' ∈ entityFor c := by
  simp [htmlSpecial] at h
  rcases h with ((((rfl | rfl) | rfl) | rfl) | rfl) <;> decide

theorem escapeHtml_length_lt (l : List Char) (h : '&' ∈ l) :
    l.length < (escapeHtml l).length := by
  induction l with
  | nil => cases h
  | cons a t ih =>
    simp only [escapeHtml, List.length_append, List.length_cons]
    rcases List.mem_cons.mp h with rfl | ht
    · have h1 : (entityFor '&').length = 5 := by decide
      have h2 := length_le_escapeHtml t
      omega
    · have h1 := entityFor_length_pos a
      have h2 := ih ht
      omega

theorem amp_mem_escapeHtml (c : Char) (hs : htmlSpecial c = true) :
    ∀ l : List Char, c ∈ l → '&' ∈ escapeHtml l := by
  intro l
  induction l with
  | nil => intro hc; cases hc
  | cons a t ih =>
    intro hc
    simp only [escapeHtml, List.mem_append]
    rcases List.mem_cons.mp hc with rfl | ht
    · exact Or.inl (amp_mem_entityFor _ hs)
    · exact Or.inr (ih ht)

theorem sanitizeCore_not_idem_of_special (l : List Char) (c : Char) (hc : c ∈ l)
    (hs : htmlSpecial c = true) : sanitizeCore (sanitizeCore l) ≠ sanitizeCore l := by
  have hamp : '&' ∈ sanitizeCore l :=
    mem_jsTrim_of '&' (by decide) _ (amp_mem_escapeHtml c hs _ hc)
  have hL : List.dropWhile jsWhitespace (sanitizeCore l) = sanitizeCore l :=
    jsTrim_trimmed_left _
  have hR : List.rdropWhile jsWhitespace (sanitizeCore l) = sanitizeCore l :=
    jsTrim_trimmed_right _
  have heq : sanitizeCore (sanitizeCore l) = escapeHtml (sanitizeCore l) :=
    jsTrim_eq_self (dropWhile_escapeHtml _ hL) (rdropWhile_escapeHtml _ hR)
  have hlen := escapeHtml_length_lt (sanitizeCore l) hamp
  intro he
  rw [heq] at he
  have := congrArg List.length he
  omega

theorem entityFor_eq_self (c : Char) (h : htmlSpecial c = false) : entityFor c = [c] := by
  simp [htmlSpecial] at h
  obtain ⟨⟨⟨⟨h1, h2⟩, h3⟩, h4⟩, h5⟩ := h
  simp [entityFor, h1, h2, h3, h4, h5]

theorem escapeHtml_eq_self (l : List Char) (h : ∀ c ∈ l, htmlSpecial c = false) :
    escapeHtml l = l := by
  induction l with
  | nil => rfl
  | cons a t ih =>
    simp only [escapeHtml]
    rw [entityFor_eq_self a (h a (List.mem_cons_self a t)),
      ih fun c hc => h c (List.mem_cons_of_mem a hc)]
    rfl

theorem sanitizeCore_idem_of_clean (l : List Char)
    (h : ∀ c ∈ l, htmlSpecial c = false) :
    sanitizeCore (sanitizeCore l) = sanitizeCore l := by
  have h1 : sanitizeCore l = jsTrim l := by
    show jsTrim (escapeHtml l) = jsTrim l
    rw [escapeHtml_eq_self l h]
  have hsub : ∀ c ∈ jsTrim l, htmlSpecial c = false :=
    fun c hc => h c (jsTrim_subset l hc)
  rw [h1]
  show jsTrim (escapeHtml (jsTrim l)) = jsTrim l
  rw [escapeHtml_eq_self _ hsub]
  exact jsTrim_idem l

/-- C6 counterexample: `sanitizeInput` is not idempotent on `&` — the
second application re-escapes the `&` of the entity produced by the first,
double-encoding it. -/
theorem sanitizeInput_not_idempotent_counterexample :
    sanitizeInput (sanitizeInput "&") ≠ sanitizeInput "&" ∧
    sanitizeInput "&" = "&amp;" ∧
    sanitizeInput (sanitizeInput "&") = "&amp;amp;" := by decide

/-- C6 amended: `sanitizeInput` is idempotent exactly on the inputs that
contain none of the five HTML-significant characters; on any input
containing one of them the second application double-encodes the `&` of
the produced entity and yields a strictly different string. -/
theorem sanitizeInput_idempotent_iff_clean (T : String) :
    sanitizeInput (sanitizeInput T) = sanitizeInput T ↔
      ∀ c ∈ T.data, htmlSpecial c = false := by
  constructor
  · intro h
    by_contra hc
    push_neg at hc
    obtain ⟨c, hmem, hs⟩ := hc
    have hs' : htmlSpecial c = true := by
      cases hb : htmlSpecial c
      · exact absurd hb hs
      · rfl
    exact sanitizeCore_not_idem_of_special T.data c hmem hs' (congrArg String.data h)
  · intro h
    show (⟨sanitizeCore (sanitizeInput T).data⟩ : String) = ⟨sanitizeCore T.data⟩
    rw [show (sanitizeInput T).data = sanitizeCore T.data from rfl,
      sanitizeCore_idem_of_clean T.data h]

/-- Witness for `sanitizeInput_idempotent_iff_clean`: the clean input
`abc` is a fixed point of double sanitization. -/
theorem sanitizeInput_idempotent_iff_clean_witness :
    sanitizeInput (sanitizeInput "abc") = sanitizeInput "abc" :=
  (sanitizeInput_idempotent_iff_clean "abc").mpr (by decide)

/-- C7: on every input containing none of the five HTML-significant
characters `< > & " '` (where `sanitizeInput` reduces to trimming),
applying `sanitizeInput` twice equals applying it once. -/
theorem sanitizeInput_idempotent_on_clean (T : String)
    (h : ∀ c ∈ T.data, htmlSpecial c = false) :
    sanitizeInput (sanitizeInput T) = sanitizeInput T := by
  show (⟨sanitizeCore (sanitizeInput T).data⟩ : String) = ⟨sanitizeCore T.data⟩
  rw [show (sanitizeInput T).data = sanitizeCore T.data from rfl,
    sanitizeCore_idem_of_clean T.data h]

/-- Witness for `sanitizeInput_idempotent_on_clean`: evaluated at the
clean input `hello world`. -/
theorem sanitizeInput_idempotent_on_clean_witness :
    sanitizeInput (sanitizeInput "hello world") = sanitizeInput "hello world" :=
  sanitizeInput_idempotent_on_clean "hello world" (by decide)
